import Mathlib

/-!
Shallow embedding of `src/nntp2mbox.py` (nntp2mbox): an incremental
NNTP-group-to-mbox mirroring tool.  The remote NNTP group is modelled as a
function `Nat → Option Msg` (`none` = the sequence number is absent/retracted
on the server, in which case the first `stat`/`article` attempt raises
`NNTPTemporaryError` and its handler immediately raises `NameError` by
reading the undefined name `aggressive`).  The sqlite dedup index (table
`messages` created
without any PRIMARY KEY or UNIQUE constraint) is modelled as a `List Msg` of
rows; the mbox archive as a `List Msg` of appended messages.  Side effects
that matter to the specification (sleeps, sqlite commits, mbox flushes, stat
probes, swallowed exceptions) are recorded in an explicit event trace.
-/

namespace Nntp2mbox

/-- A message: the remote article together with the four header fields the
tool extracts (`Message-Id`, `Date`, `From`, `Subject`).  An `IndexEntry`
row of the sqlite table `messages(msgid, date, sender, subject)` carries
exactly the same four fields, so the same structure is used for both. -/
structure Msg where
  msgid : String
  date : String
  sender : String
  subject : String
deriving DecidableEq

/-- The dedup index: the rows of the sqlite table `messages`, in insertion
order.  The table is created with no uniqueness constraint. -/
abbrev Index := List Msg

/-- `contains(index, msgid)`: `SELECT * FROM messages WHERE msgid=?` followed
by `fetchone()` — true iff some row has the given msgid (line 43-45). -/
def contains (index : Index) (msgid : String) : Bool :=
  index.any (fun e => e.msgid == msgid)

/-- `index_msg(index, msg)`: `INSERT INTO messages VALUES(?,?,?,?)`
(lines 116-122).  The table has no key constraint, so the insert always
succeeds and simply appends a row, even when the msgid is already present. -/
def index_msg (index : Index) (m : Msg) : Index :=
  index ++ [m]

/-- Number of index rows carrying a given msgid. -/
def countMsgid (index : Index) (msgid : String) : Nat :=
  (index.filter (fun e => e.msgid == msgid)).length

/-- `initialize_index(indexfile, mbox)` (lines 125-136): bulk-import one row
per message already in the mbox. -/
def initialize_index (mbox : List Msg) : Index :=
  mbox.foldl index_msg []

/-! ### The attempt loop of `stat` / `get` (lines 48-85)

Both `stat` and `get` run `for attempt in range(attempts): try: ... except
NNTPTemporaryError: print; if not aggressive: sleep; else: break`.  The name
`aggressive` is not defined in module scope (it is only a parameter of
`download` and of `main`), so the first `NNTPTemporaryError` makes the
handler raise `NameError` at once: there is no sleep, no retry and no second
attempt, and the `for`-`else` (whose `log` call would read the never-assigned
result variables, an `UnboundLocalError`) is unreachable for any positive
attempt budget.  An attempt either succeeds with a value or raises a
temporary error. -/

/-- Global `attempts = 2` (line 25). -/
def attempts : Nat := 2

/-- Outcome of one remote attempt. -/
inductive Attempt (α : Type) where
  | ok (a : α)
  | transient
deriving DecidableEq

/-- The Python exceptions the embedding distinguishes.  `nameError` is the
`NameError` raised by the `except` handler of `stat`/`get` reading the
undefined name `aggressive`; `unboundLocal` is the `UnboundLocalError` the
`for`-`else` fall-through would raise in `log` (dead code, see above);
`zeroDivision` is the `ZeroDivisionError` of the `status` line (recorded in
the event trace as `Event.zeroDiv`). -/
inductive PyError where
  | nameError
  | unboundLocal
  | zeroDivision
deriving DecidableEq

/-- The attempt loop shared by `stat` and `get`, as it actually executes:
a successful attempt breaks out and its result is returned; a transient
failure enters the handler, which prints and then evaluates
`if not aggressive:` — `aggressive` being undefined, a `NameError` escapes
immediately, so the loop never continues to a second attempt.  The fuel-0
base case is the `for`-`else` fall-through into `log` with unbound locals
(`UnboundLocalError`); with the positive budget `attempts = 2` it is
unreachable. -/
def retryLoop {α : Type} (f : Nat → Attempt α) : Nat → Nat → Except PyError α
  | _, 0 => .error .unboundLocal
  | i, _fuel + 1 =>
    match f i with
    | .ok a => .ok a
    | .transient => .error .nameError

/-- Number of remote attempts the loop actually performs: one when the
first attempt succeeds, and also just one when it fails transiently — the
handler's `NameError` aborts the call before any retry. -/
def retryUsed {α : Type} (f : Nat → Attempt α) : Nat → Nat → Nat
  | _, 0 => 0
  | i, _fuel + 1 =>
    match f i with
    | .ok _ => 1
    | .transient => 1

/-- `stat(nntpconn, msgno)` (lines 48-63) viewed through its per-attempt
outcomes: run the attempt loop with the global budget `attempts` (which the
handler's `NameError` prevents from ever being used beyond one attempt). -/
def stat {α : Type} (f : Nat → Attempt α) : Except PyError α :=
  retryLoop f 0 attempts

/-! ### Range resolution inside `download` (lines 170-186)

`argparse` yields `None` when `-s`/`-n` are not given, and Python truthiness
(`if start:`, `if number:`) also treats `0` as absent. -/

/-- Python truthiness of an optional integer argument. -/
def truthy : Option Nat → Bool
  | none => false
  | some n => n != 0

/-- Lines 170-181 of `download`: compute `(startnr, last)` from the group's
`first`/`last` and the `--start`/`--number` arguments.
```
if start:
    startnr = max(first, start); startnr = min(startnr, last)
    if number: last = min(startnr + number, last)
else:
    startnr = first
    if number: startnr = max(startnr, last - number)
``` -/
def resolveRange (first last : Nat) (start number : Option Nat) : Nat × Nat :=
  if truthy start then
    let startnr := min (max first (start.getD 0)) last
    let last' := if truthy number then min (startnr + number.getD 0) last else last
    (startnr, last')
  else
    let startnr := if truthy number then max first (last - number.getD 0) else first
    (startnr, last)

/-! ### The check loop, fetch loop and the event trace of `download` -/

/-- Observable side effects of one run, in order of occurrence. -/
inductive Event where
  | sleep30 (msgno : Nat)
  | dryMsg (msgno : Nat)
  | zeroDiv (msgno : Nat)
  | statOk (msgno : Nat)
  | statFail (msgno : Nat)
  | queueEv (msgno : Nat)
  | skipEv (msgno : Nat)
  | storeEv (msgno : Nat)
  | commitIndex
  | getFail (msgno : Nat)
  | flushMbox
deriving DecidableEq

/-- Result of `check(index, mbox, nntpconn, msgno, update)` (lines 88-104).
With `update`, `stat` is called: on an absent article the first attempt
raises `NNTPTemporaryError` and the handler's read of the undefined name
`aggressive` raises `NameError` at once (`raised`); on a present article
`stat` succeeds on its first attempt, returns its msgid, and the index is
consulted.  Without `update` the function short-circuits: no `stat` call, no
index query, always queue. -/
inductive CheckResult where
  | queue
  | skip
  | raised
deriving DecidableEq

/-- `check` (lines 88-104), with the remote and index made explicit. -/
def check (update : Bool) (remote : Nat → Option Msg) (index : Index)
    (msgno : Nat) : CheckResult :=
  if update then
    match remote msgno with
    | none => .raised
    | some m => if contains index m.msgid then .skip else .queue
  else
    .queue

/-- State threaded through the check loop: the stack of queued message
numbers and the event trace so far. -/
structure ScanSt where
  stack : List Nat
  events : List Event

/-- One iteration of the check loop (lines 191-211), returning the new state
and whether the loop `break`s.  Order of the body: optional 30s sleep, the
dry-run `continue`, the `status` percentage (which raises
`ZeroDivisionError` when `last == startnr`, swallowed by the bare `except`),
then `check`; an exception escaping `check` is also swallowed and the loop
continues with the next (lower) number. -/
def scanIter (aggressive dryRun update : Bool) (startnr last : Nat)
    (remote : Nat → Option Msg) (index : Index) (st : ScanSt) (msgno : Nat) :
    ScanSt × Bool :=
  let pre : List Event := if aggressive = false ∧ msgno % 1000 = 0 ∧ msgno ≠ startnr
    then [Event.sleep30 msgno] else []
  if dryRun then
    ({ st with events := st.events ++ (pre ++ [Event.dryMsg msgno]) }, false)
  else if last = startnr then
    ({ st with events := st.events ++ (pre ++ [Event.zeroDiv msgno]) }, false)
  else
    match check update remote index msgno with
    | .raised =>
      ({ st with events := st.events ++ (pre ++ [Event.statFail msgno]) }, false)
    | .skip =>
      ({ st with events := st.events ++ (pre ++ [Event.statOk msgno, Event.skipEv msgno]) }, true)
    | .queue =>
      ({ stack := st.stack ++ [msgno],
         events := st.events ++
           (pre ++ (if update then [Event.statOk msgno] else []) ++ [Event.queueEv msgno]) }, false)

/-- The check loop over a list of message numbers (the code iterates
`reversed(range(startnr, last + 1))`), stopping at the first `break`. -/
def scanList (aggressive dryRun update : Bool) (startnr last : Nat)
    (remote : Nat → Option Msg) (index : Index) :
    List Nat → ScanSt → ScanSt
  | [], st => st
  | m :: rest, st =>
    let r := scanIter aggressive dryRun update startnr last remote index st m
    if r.2 then r.1
    else scanList aggressive dryRun update startnr last remote index rest r.1

/-- Mutable state of one `download` run: the index, the mbox, the trace. -/
structure RunSt where
  index : Index
  mbox : List Msg
  events : List Event
deriving DecidableEq

/-- `store(index, mbox, nntpconn, msgno)` (lines 107-113): `get` the article,
append it to the mbox, insert the index row, commit.  On an absent article
`get` raises (a `NameError` from the handler's undefined `aggressive`, after
a single failed attempt); the exception is swallowed by the fetch loop's
bare `except` and nothing is stored. -/
def store (remote : Nat → Option Msg) (st : RunSt) (msgno : Nat) : RunSt :=
  match remote msgno with
  | none => { st with events := st.events ++ [Event.getFail msgno] }
  | some m =>
    { index := index_msg st.index m,
      mbox := st.mbox ++ [m],
      events := st.events ++ [Event.storeEv msgno, Event.commitIndex] }

/-- The fetch loop (lines 219-228): `while stack: msgno = stack.pop()`, i.e.
the queued numbers are processed in reverse order of queueing. -/
def fetchAll (remote : Nat → Option Msg) : List Nat → RunSt → RunSt
  | [], st => st
  | m :: rest, st => fetchAll remote rest (store remote st m)

/-- `reversed(range(startnr, last + 1))`: the message numbers scanned by the
check loop, from `last` down to `startnr`. -/
def descRange (startnr last : Nat) : List Nat :=
  (List.range' startnr (last + 1 - startnr)).reverse

/-- The body of `download` after range resolution (lines 186-235): run the
check loop over `reversed(range(startnr, last + 1))`, then fetch the stacked
numbers in `pop()` (ascending) order, then — unless dry-run — flush the mbox. -/
def syncRange (aggressive dryRun update : Bool) (startnr last : Nat)
    (remote : Nat → Option Msg) (idx0 : Index) (mbox0 : List Msg) : RunSt :=
  let scan := scanList aggressive dryRun update startnr last remote idx0
    (descRange startnr last) ⟨[], []⟩
  let fetched := fetchAll remote scan.stack.reverse ⟨idx0, mbox0, scan.events⟩
  if dryRun then fetched
  else { fetched with events := fetched.events ++ [Event.flushMbox] }

/-- `download(group, aggressive, dry_run, number, start, update)`
(lines 139-235), with the remote group state (`first`, `last`, the articles)
and the initial index/mbox contents passed explicitly. -/
def download (aggressive dryRun update : Bool) (number start : Option Nat)
    (first last : Nat) (remote : Nat → Option Msg) (idx0 : Index)
    (mbox0 : List Msg) : RunSt :=
  let r := resolveRange first last start number
  syncRange aggressive dryRun update r.1 r.2 remote idx0 mbox0

/-- The stack built by the check loop of a run (the queue of messages to
retrieve), as a function of the run's inputs. -/
def downloadStack (aggressive dryRun update : Bool) (number start : Option Nat)
    (first last : Nat) (remote : Nat → Option Msg) (idx0 : Index) : List Nat :=
  let r := resolveRange first last start number
  (scanList aggressive dryRun update r.1 r.2 remote idx0
    (descRange r.1 r.2) ⟨[], []⟩).stack

/-! ### Pure views of the two loops

`scanList` threads a state and a break flag; for reasoning we compute its
stack and event components by plain structural recursion and prove the
correspondence once. -/

/-- The stack contributed by the check loop on a list of message numbers. -/
def scanQueue (dryRun update : Bool) (startnr last : Nat)
    (remote : Nat → Option Msg) (index : Index) : List Nat → List Nat
  | [] => []
  | m :: rest =>
    if dryRun then scanQueue dryRun update startnr last remote index rest
    else if last = startnr then scanQueue dryRun update startnr last remote index rest
    else
      match check update remote index m with
      | .raised => scanQueue dryRun update startnr last remote index rest
      | .skip => []
      | .queue => m :: scanQueue dryRun update startnr last remote index rest

/-- The events contributed by the check loop on a list of message numbers. -/
def scanEvents (aggressive dryRun update : Bool) (startnr last : Nat)
    (remote : Nat → Option Msg) (index : Index) : List Nat → List Event
  | [] => []
  | m :: rest =>
    let pre := if aggressive = false ∧ m % 1000 = 0 ∧ m ≠ startnr
      then [Event.sleep30 m] else []
    if dryRun then
      pre ++ Event.dryMsg m :: scanEvents aggressive dryRun update startnr last remote index rest
    else if last = startnr then
      pre ++ Event.zeroDiv m :: scanEvents aggressive dryRun update startnr last remote index rest
    else
      match check update remote index m with
      | .raised =>
        pre ++ Event.statFail m :: scanEvents aggressive dryRun update startnr last remote index rest
      | .skip => pre ++ [Event.statOk m, Event.skipEv m]
      | .queue =>
        pre ++ (if update then [Event.statOk m] else []) ++
          Event.queueEv m :: scanEvents aggressive dryRun update startnr last remote index rest

/-- The messages successfully fetched when the fetch loop processes `L`. -/
def fetchMsgs (remote : Nat → Option Msg) (L : List Nat) : List Msg :=
  L.filterMap remote

/-- The events emitted by the fetch loop on `L`. -/
def fetchEvents (remote : Nat → Option Msg) : List Nat → List Event
  | [] => []
  | m :: rest =>
    (match remote m with
     | none => [Event.getFail m]
     | some _ => [Event.storeEv m, Event.commitIndex]) ++ fetchEvents remote rest

/-! ### Counting events -/

/-- Is this event a `stat` probe (successful or exhausted)? -/
def isStatEv : Event → Bool
  | .statOk _ => true
  | .statFail _ => true
  | _ => false

/-- Is this event the mbox flush? -/
def isFlushEv : Event → Bool
  | .flushMbox => true
  | _ => false

/-- Is this event an `index.commit()`? -/
def isCommitEv : Event → Bool
  | .commitIndex => true
  | _ => false

/-- Is this event a 30-second sleep? -/
def isSleepEv : Event → Bool
  | .sleep30 _ => true
  | _ => false

/-- Number of `stat(nntpconn, msgno)` calls the check loop performs on `L`
(each such call makes exactly one network round trip: a success returns and
a transient failure aborts inside the handler). -/
def scanProbes (dryRun update : Bool) (startnr last : Nat)
    (remote : Nat → Option Msg) (index : Index) : List Nat → Nat
  | [] => 0
  | m :: rest =>
    if dryRun then scanProbes dryRun update startnr last remote index rest
    else if last = startnr then scanProbes dryRun update startnr last remote index rest
    else
      match check update remote index m with
      | .raised => 1 + scanProbes dryRun update startnr last remote index rest
      | .skip => 1
      | .queue =>
        (if update then 1 else 0) + scanProbes dryRun update startnr last remote index rest

/-! ### Remote/index classification of a sequence number -/

/-- The sequence number exists on the remote (`stat` would succeed). -/
def presentAt (remote : Nat → Option Msg) (n : Nat) : Bool :=
  (remote n).isSome

/-- The spec's `alreadyIndexed(seq)` predicate: `stat(seq).messageId` exists
and is contained in the index. -/
def indexedAt (remote : Nat → Option Msg) (idx : Index) (n : Nat) : Bool :=
  match remote n with
  | some m => contains idx m.msgid
  | none => false

/-- The first message number in `L` that exists on the remote is already in
the index (vacuously true when every number in `L` is absent).  This is what
the check loop needs for its first iterations to reach a `SKIP`-`break`
without queueing anything. -/
def headPresentIndexed (remote : Nat → Option Msg) (idx : Index) : List Nat → Prop
  | [] => True
  | m :: rest =>
    match remote m with
    | some msg => contains idx msg.msgid = true
    | none => headPresentIndexed remote idx rest

/-- A fixed message used by the concrete runs below. -/
def msgA : Msg := ⟨"<a@x>", "d", "s", "t"⟩

/-- A remote where every sequence number carries an article.  (The scans
under test start from an empty index or never consult it, so the shared
messageId is irrelevant.) -/
def remoteAll : Nat → Option Msg := fun _ => some msgA

/-- A small four-article group with distinct messageIds. -/
def remoteFour : Nat → Option Msg := fun n =>
  if n = 1 then some ⟨"a1", "", "", ""⟩
  else if n = 2 then some ⟨"a2", "", "", ""⟩
  else if n = 3 then some ⟨"a3", "", "", ""⟩
  else some ⟨"a4", "", "", ""⟩

/-- An index already holding the messageIds of articles 1 and 2 of
`remoteFour`. -/
def idxFour : Index := [⟨"a1", "", "", ""⟩, ⟨"a2", "", "", ""⟩]

/-- A four-number group whose article 2 is absent (deleted) on the remote;
article 1 is indexed, articles 3 and 4 are new. -/
def remoteGap : Nat → Option Msg := fun n =>
  if n = 2 then none
  else if n = 1 then some ⟨"a1", "", "", ""⟩
  else if n = 3 then some ⟨"a3", "", "", ""⟩
  else some ⟨"a4", "", "", ""⟩

/-- Number of 30-second sleeps the check loop performs on `L` when no
`break` occurs: one per scanned number divisible by 1000 (other than
`startnr`), unless the aggressive flag is set. -/
def scanSleeps (aggressive : Bool) (startnr : Nat) : List Nat → Nat
  | [] => 0
  | m :: rest =>
    (if aggressive = false ∧ m % 1000 = 0 ∧ m ≠ startnr then 1 else 0) +
      scanSleeps aggressive startnr rest

theorem scanList_spec (aggressive dryRun update : Bool) (startnr last : Nat)
    (remote : Nat → Option Msg) (index : Index) :
    ∀ (L : List Nat) (st : ScanSt),
      scanList aggressive dryRun update startnr last remote index L st =
        ⟨st.stack ++ scanQueue dryRun update startnr last remote index L,
         st.events ++ scanEvents aggressive dryRun update startnr last remote index L⟩ := by
  intro L
  induction L with
  | nil => intro st; simp [scanList, scanQueue, scanEvents]
  | cons m rest ih =>
    intro st
    cases dryRun with
    | true => simp [scanList, scanIter, scanQueue, scanEvents, ih]
    | false =>
      by_cases hl : last = startnr
      · subst hl
        simp [scanList, scanIter, scanQueue, scanEvents, ih]
      · rcases hc : check update remote index m with _ | _ | _ <;>
          simp [scanList, scanIter, scanQueue, scanEvents, hl, hc, ih]

theorem fetchAll_spec (remote : Nat → Option Msg) :
    ∀ (L : List Nat) (st : RunSt),
      fetchAll remote L st =
        ⟨st.index ++ fetchMsgs remote L, st.mbox ++ fetchMsgs remote L,
         st.events ++ fetchEvents remote L⟩ := by
  intro L
  induction L with
  | nil => intro st; simp [fetchAll, fetchMsgs, fetchEvents]
  | cons m rest ih =>
    intro st
    rcases hr : remote m with _ | msg <;>
      simp [fetchAll, store, hr, ih, fetchMsgs, fetchEvents, index_msg]

/-- Closed form of one run: the scan queue `Q` determines everything. -/
theorem syncRange_spec (aggressive dryRun update : Bool) (startnr last : Nat)
    (remote : Nat → Option Msg) (idx0 : Index) (mbox0 : List Msg) :
    syncRange aggressive dryRun update startnr last remote idx0 mbox0 =
      let Q := scanQueue dryRun update startnr last remote idx0 (descRange startnr last)
      ⟨idx0 ++ fetchMsgs remote Q.reverse,
       mbox0 ++ fetchMsgs remote Q.reverse,
       scanEvents aggressive dryRun update startnr last remote idx0 (descRange startnr last) ++
         fetchEvents remote Q.reverse ++
         (if dryRun then [] else [Event.flushMbox])⟩ := by
  simp only [syncRange, scanList_spec, fetchAll_spec]
  by_cases hd : dryRun <;> simp [hd]

@[simp] theorem isStatEv_sleep30 (n : Nat) : isStatEv (Event.sleep30 n) = false := rfl

@[simp] theorem isStatEv_dryMsg (n : Nat) : isStatEv (Event.dryMsg n) = false := rfl

@[simp] theorem isStatEv_zeroDiv (n : Nat) : isStatEv (Event.zeroDiv n) = false := rfl

@[simp] theorem isStatEv_statOk (n : Nat) : isStatEv (Event.statOk n) = true := rfl

@[simp] theorem isStatEv_statFail (n : Nat) : isStatEv (Event.statFail n) = true := rfl

@[simp] theorem isStatEv_queueEv (n : Nat) : isStatEv (Event.queueEv n) = false := rfl

@[simp] theorem isStatEv_skipEv (n : Nat) : isStatEv (Event.skipEv n) = false := rfl

@[simp] theorem isStatEv_storeEv (n : Nat) : isStatEv (Event.storeEv n) = false := rfl

@[simp] theorem isStatEv_commitIndex : isStatEv Event.commitIndex = false := rfl

@[simp] theorem isStatEv_getFail (n : Nat) : isStatEv (Event.getFail n) = false := rfl

@[simp] theorem isStatEv_flushMbox : isStatEv Event.flushMbox = false := rfl

@[simp] theorem isFlushEv_sleep30 (n : Nat) : isFlushEv (Event.sleep30 n) = false := rfl

@[simp] theorem isFlushEv_dryMsg (n : Nat) : isFlushEv (Event.dryMsg n) = false := rfl

@[simp] theorem isFlushEv_zeroDiv (n : Nat) : isFlushEv (Event.zeroDiv n) = false := rfl

@[simp] theorem isFlushEv_statOk (n : Nat) : isFlushEv (Event.statOk n) = false := rfl

@[simp] theorem isFlushEv_statFail (n : Nat) : isFlushEv (Event.statFail n) = false := rfl

@[simp] theorem isFlushEv_queueEv (n : Nat) : isFlushEv (Event.queueEv n) = false := rfl

@[simp] theorem isFlushEv_skipEv (n : Nat) : isFlushEv (Event.skipEv n) = false := rfl

@[simp] theorem isFlushEv_storeEv (n : Nat) : isFlushEv (Event.storeEv n) = false := rfl

@[simp] theorem isFlushEv_commitIndex : isFlushEv Event.commitIndex = false := rfl

@[simp] theorem isFlushEv_getFail (n : Nat) : isFlushEv (Event.getFail n) = false := rfl

@[simp] theorem isFlushEv_flushMbox : isFlushEv Event.flushMbox = true := rfl

@[simp] theorem isCommitEv_sleep30 (n : Nat) : isCommitEv (Event.sleep30 n) = false := rfl

@[simp] theorem isCommitEv_dryMsg (n : Nat) : isCommitEv (Event.dryMsg n) = false := rfl

@[simp] theorem isCommitEv_zeroDiv (n : Nat) : isCommitEv (Event.zeroDiv n) = false := rfl

@[simp] theorem isCommitEv_statOk (n : Nat) : isCommitEv (Event.statOk n) = false := rfl

@[simp] theorem isCommitEv_statFail (n : Nat) : isCommitEv (Event.statFail n) = false := rfl

@[simp] theorem isCommitEv_queueEv (n : Nat) : isCommitEv (Event.queueEv n) = false := rfl

@[simp] theorem isCommitEv_skipEv (n : Nat) : isCommitEv (Event.skipEv n) = false := rfl

@[simp] theorem isCommitEv_storeEv (n : Nat) : isCommitEv (Event.storeEv n) = false := rfl

@[simp] theorem isCommitEv_commitIndex : isCommitEv Event.commitIndex = true := rfl

@[simp] theorem isCommitEv_getFail (n : Nat) : isCommitEv (Event.getFail n) = false := rfl

@[simp] theorem isCommitEv_flushMbox : isCommitEv Event.flushMbox = false := rfl

@[simp] theorem isSleepEv_sleep30 (n : Nat) : isSleepEv (Event.sleep30 n) = true := rfl

@[simp] theorem isSleepEv_dryMsg (n : Nat) : isSleepEv (Event.dryMsg n) = false := rfl

@[simp] theorem isSleepEv_zeroDiv (n : Nat) : isSleepEv (Event.zeroDiv n) = false := rfl

@[simp] theorem isSleepEv_statOk (n : Nat) : isSleepEv (Event.statOk n) = false := rfl

@[simp] theorem isSleepEv_statFail (n : Nat) : isSleepEv (Event.statFail n) = false := rfl

@[simp] theorem isSleepEv_queueEv (n : Nat) : isSleepEv (Event.queueEv n) = false := rfl

@[simp] theorem isSleepEv_skipEv (n : Nat) : isSleepEv (Event.skipEv n) = false := rfl

@[simp] theorem isSleepEv_storeEv (n : Nat) : isSleepEv (Event.storeEv n) = false := rfl

@[simp] theorem isSleepEv_commitIndex : isSleepEv Event.commitIndex = false := rfl

@[simp] theorem isSleepEv_getFail (n : Nat) : isSleepEv (Event.getFail n) = false := rfl

@[simp] theorem isSleepEv_flushMbox : isSleepEv Event.flushMbox = false := rfl

theorem countP_statEv_scanEvents (aggressive dryRun update : Bool)
    (startnr last : Nat) (remote : Nat → Option Msg) (index : Index)
    (L : List Nat) :
    (scanEvents aggressive dryRun update startnr last remote index L).countP isStatEv =
      scanProbes dryRun update startnr last remote index L := by
  induction L with
  | nil => simp [scanEvents, scanProbes]
  | cons m rest ih =>
    cases dryRun with
    | true =>
      simp [scanEvents, scanProbes, List.countP_append, List.countP_cons,
        apply_ite (List.countP isStatEv), ih, Nat.add_comm]
    | false =>
      by_cases hl : last = startnr
      · subst hl
        simp [scanEvents, scanProbes, List.countP_append, List.countP_cons,
          apply_ite (List.countP isStatEv), ih, Nat.add_comm]
      · rcases hc : check update remote index m with _ | _ | _ <;>
          cases update <;>
            simp [scanEvents, scanProbes, hl, hc, List.countP_append, List.countP_cons,
              apply_ite (List.countP isStatEv), ih, Nat.add_comm]

theorem countP_flushEv_scanEvents (aggressive dryRun update : Bool)
    (startnr last : Nat) (remote : Nat → Option Msg) (index : Index)
    (L : List Nat) :
    (scanEvents aggressive dryRun update startnr last remote index L).countP isFlushEv = 0 := by
  induction L with
  | nil => simp [scanEvents]
  | cons m rest ih =>
    cases dryRun with
    | true =>
      simp [scanEvents, List.countP_append, List.countP_cons,
        apply_ite (List.countP isFlushEv), ih]
    | false =>
      by_cases hl : last = startnr
      · subst hl
        simp [scanEvents, List.countP_append, List.countP_cons,
          apply_ite (List.countP isFlushEv), ih]
      · rcases hc : check update remote index m with _ | _ | _ <;>
          cases update <;>
            simp [scanEvents, hl, hc, List.countP_append, List.countP_cons,
              apply_ite (List.countP isFlushEv), ih]

theorem countP_commitEv_scanEvents (aggressive dryRun update : Bool)
    (startnr last : Nat) (remote : Nat → Option Msg) (index : Index)
    (L : List Nat) :
    (scanEvents aggressive dryRun update startnr last remote index L).countP isCommitEv = 0 := by
  induction L with
  | nil => simp [scanEvents]
  | cons m rest ih =>
    cases dryRun with
    | true =>
      simp [scanEvents, List.countP_append, List.countP_cons,
        apply_ite (List.countP isCommitEv), ih]
    | false =>
      by_cases hl : last = startnr
      · subst hl
        simp [scanEvents, List.countP_append, List.countP_cons,
          apply_ite (List.countP isCommitEv), ih]
      · rcases hc : check update remote index m with _ | _ | _ <;>
          cases update <;>
            simp [scanEvents, hl, hc, List.countP_append, List.countP_cons,
              apply_ite (List.countP isCommitEv), ih]

theorem countP_flushEv_fetchEvents (remote : Nat → Option Msg) (L : List Nat) :
    (fetchEvents remote L).countP isFlushEv = 0 := by
  induction L with
  | nil => simp [fetchEvents]
  | cons m rest ih =>
    rcases hr : remote m with _ | msg <;> simp [fetchEvents, hr, ih]

theorem countP_statEv_fetchEvents (remote : Nat → Option Msg) (L : List Nat) :
    (fetchEvents remote L).countP isStatEv = 0 := by
  induction L with
  | nil => simp [fetchEvents]
  | cons m rest ih =>
    rcases hr : remote m with _ | msg <;> simp [fetchEvents, hr, ih]

theorem countP_sleepEv_fetchEvents (remote : Nat → Option Msg) (L : List Nat) :
    (fetchEvents remote L).countP isSleepEv = 0 := by
  induction L with
  | nil => simp [fetchEvents]
  | cons m rest ih =>
    rcases hr : remote m with _ | msg <;> simp [fetchEvents, hr, ih]

theorem countP_commitEv_fetchEvents (remote : Nat → Option Msg) (L : List Nat) :
    (fetchEvents remote L).countP isCommitEv = (fetchMsgs remote L).length := by
  induction L with
  | nil => simp [fetchEvents, fetchMsgs]
  | cons m rest ih =>
    rcases hr : remote m with _ | msg <;>
      simp [fetchEvents, fetchMsgs, hr, ih]

theorem check_queue_of_new (remote : Nat → Option Msg) (idx : Index) (n : Nat)
    (hp : presentAt remote n = true) (hi : indexedAt remote idx n = false) :
    check true remote idx n = .queue := by
  rcases hr : remote n with _ | m
  · simp [presentAt, hr] at hp
  · simp only [indexedAt, hr] at hi
    simp [check, hr, hi]

theorem check_skip_of_indexed (remote : Nat → Option Msg) (idx : Index) (n : Nat)
    (hi : indexedAt remote idx n = true) :
    check true remote idx n = .skip := by
  rcases hr : remote n with _ | m
  · simp [indexedAt, hr] at hi
  · simp only [indexedAt, hr] at hi
    simp [check, hr, hi]

theorem check_raised_of_absent (remote : Nat → Option Msg) (idx : Index) (n : Nat)
    (hr : remote n = none) : check true remote idx n = .raised := by
  simp [check, hr]

theorem contains_append (A B : Index) (id : String) :
    contains (A ++ B) id = (contains A id || contains B id) := by
  simp [contains]

theorem contains_index_msg_self (idx : Index) (m : Msg) :
    contains (index_msg idx m) m.msgid = true := by
  simp [contains, index_msg]

theorem fetchMsgs_append (remote : Nat → Option Msg) (A B : List Nat) :
    fetchMsgs remote (A ++ B) = fetchMsgs remote A ++ fetchMsgs remote B := by
  simp [fetchMsgs]

/-- In update mode the check loop queues nothing when the topmost present
number is already indexed (or when the `status` line divides by zero on a
single-number range). -/
theorem scanQueue_nil_update (startnr last : Nat) (remote : Nat → Option Msg)
    (idx : Index) :
    ∀ L : List Nat, (last = startnr ∨ headPresentIndexed remote idx L) →
      scanQueue false true startnr last remote idx L = [] := by
  intro L
  induction L with
  | nil => intro _; simp [scanQueue]
  | cons m rest ih =>
    intro h
    by_cases hl : last = startnr
    · simp only [scanQueue, if_neg Bool.false_ne_true, if_pos hl]
      exact ih (Or.inl hl)
    · rcases h with h | h
      · exact absurd h hl
      · rcases hr : remote m with _ | msg
        · have hc := check_raised_of_absent remote idx m hr
          simp only [scanQueue, if_neg Bool.false_ne_true, if_neg hl, hc]
          simp only [headPresentIndexed, hr] at h
          exact ih (Or.inr h)
        · simp only [headPresentIndexed, hr] at h
          have hc : check true remote idx m = .skip :=
            check_skip_of_indexed remote idx m (by simp [indexedAt, hr, h])
          simp only [scanQueue, if_neg Bool.false_ne_true, if_neg hl, hc]

theorem syncRange_index (aggressive dryRun update : Bool) (startnr last : Nat)
    (remote : Nat → Option Msg) (idx0 : Index) (mbox0 : List Msg) :
    (syncRange aggressive dryRun update startnr last remote idx0 mbox0).index =
      idx0 ++ fetchMsgs remote
        (scanQueue dryRun update startnr last remote idx0 (descRange startnr last)).reverse := by
  rw [syncRange_spec]

theorem syncRange_mbox (aggressive dryRun update : Bool) (startnr last : Nat)
    (remote : Nat → Option Msg) (idx0 : Index) (mbox0 : List Msg) :
    (syncRange aggressive dryRun update startnr last remote idx0 mbox0).mbox =
      mbox0 ++ fetchMsgs remote
        (scanQueue dryRun update startnr last remote idx0 (descRange startnr last)).reverse := by
  rw [syncRange_spec]

theorem syncRange_events (aggressive dryRun update : Bool) (startnr last : Nat)
    (remote : Nat → Option Msg) (idx0 : Index) (mbox0 : List Msg) :
    (syncRange aggressive dryRun update startnr last remote idx0 mbox0).events =
      scanEvents aggressive dryRun update startnr last remote idx0 (descRange startnr last) ++
        fetchEvents remote
          (scanQueue dryRun update startnr last remote idx0 (descRange startnr last)).reverse ++
        (if dryRun then [] else [Event.flushMbox]) := by
  rw [syncRange_spec]

/-- After one update-mode pass over `L` (scan, then fetch of everything
queued), the first number of `L` that exists on the remote is indexed:
either it already was — the scan broke there and stored nothing — or it was
the first number queued and the fetch loop stored it. -/
theorem headPresentIndexed_after_run (startnr last : Nat)
    (remote : Nat → Option Msg) (idx0 : Index) :
    ∀ L : List Nat,
      last = startnr ∨
        headPresentIndexed remote
          (idx0 ++ fetchMsgs remote
            (scanQueue false true startnr last remote idx0 L).reverse) L := by
  intro L
  induction L with
  | nil => exact Or.inr trivial
  | cons m rest ih =>
    by_cases hl : last = startnr
    · exact Or.inl hl
    · right
      rcases hr : remote m with _ | msg
      · have hc := check_raised_of_absent remote idx0 m hr
        simp only [scanQueue, if_neg Bool.false_ne_true, if_neg hl, hc]
        simp only [headPresentIndexed, hr]
        rcases ih with h | h
        · exact absurd h hl
        · exact h
      · by_cases hct : contains idx0 msg.msgid = true
        · have hc : check true remote idx0 m = .skip :=
            check_skip_of_indexed remote idx0 m (by simp [indexedAt, hr, hct])
          simp only [scanQueue, if_neg Bool.false_ne_true, if_neg hl, hc]
          simp only [headPresentIndexed, hr]
          simp [fetchMsgs, contains_append, hct]
        · have hc : check true remote idx0 m = .queue :=
            check_queue_of_new remote idx0 m (by simp [presentAt, hr])
              (by simp only [indexedAt, hr]; exact Bool.not_eq_true _ ▸ hct)
          simp only [scanQueue, if_neg Bool.false_ne_true, if_neg hl, hc]
          simp only [headPresentIndexed, hr]
          rw [List.reverse_cons, fetchMsgs_append]
          simp [fetchMsgs, hr, contains_append, contains]

/-- **C4** (idempotence): running `download` twice in update (incremental)
mode against the same remote state — same group range, same articles, no new
items in between — leaves the index and the mbox of the second run exactly
as the first run left them: the second run performs zero new index inserts
and archives zero new messages. -/
theorem incremental_second_run_writes_nothing (aggressive : Bool)
    (number start : Option Nat) (first last : Nat) (remote : Nat → Option Msg)
    (idx0 : Index) (mbox0 : List Msg) :
    let st1 := download aggressive false true number start first last remote idx0 mbox0
    let st2 := download aggressive false true number start first last remote st1.index st1.mbox
    st2.index = st1.index ∧ st2.mbox = st1.mbox := by
  intro st1 st2
  have hst1 : st1.index = idx0 ++ fetchMsgs remote
      (scanQueue false true (resolveRange first last start number).1
        (resolveRange first last start number).2 remote idx0
        (descRange (resolveRange first last start number).1
          (resolveRange first last start number).2)).reverse := by
    show (download aggressive false true number start first last remote idx0 mbox0).index = _
    simp only [download, syncRange_index]
  have hnil :
      scanQueue false true (resolveRange first last start number).1
        (resolveRange first last start number).2 remote st1.index
        (descRange (resolveRange first last start number).1
          (resolveRange first last start number).2) = [] := by
    refine scanQueue_nil_update _ _ _ _ _ ?_
    rw [hst1]
    exact headPresentIndexed_after_run _ _ remote idx0 _
  constructor
  · show (download aggressive false true number start first last remote st1.index st1.mbox).index
      = st1.index
    simp only [download, syncRange_index, hnil]
    simp [fetchMsgs]
  · show (download aggressive false true number start first last remote st1.index st1.mbox).mbox
      = st1.mbox
    simp only [download, syncRange_mbox, hnil]
    simp [fetchMsgs]

/-! ### Claim C2: range resolution -/

/-- **C2 counterexample**: with `remoteFirst = 100`, `remoteLast = 500`,
`start = 200`, `count = 10`, the code computes `last = min(startnr + number,
last) = 210`, so the resolved range is `[200, 210]` — not `[200, 209]` as
claimed (the claimed clamp would be `start + count - 1`). -/
theorem range_resolution_start_plus_count :
    resolveRange 100 500 (some 200) (some 10) = (200, 210) ∧
      resolveRange 100 500 (some 200) (some 10) ≠ (200, 209) := by
  constructor
  · rfl
  · decide

/-- **C2 amended**: with `remoteFirst = 100`, `remoteLast = 500`:
`start = 50, count = None` resolves to `[100, 500]`; `start = None,
count = 50` resolves to `[450, 500]`; `start = 200, count = 10` resolves to
`[200, 210]` — when both a start and a fetch-count limit are given the end
is clamped to `min(start + count, remoteLast)` (one past `start+count-1`). -/
theorem range_resolution_cases :
    resolveRange 100 500 (some 50) none = (100, 500) ∧
      resolveRange 100 500 none (some 50) = (450, 500) ∧
      resolveRange 100 500 (some 200) (some 10) = (200, 210) := by
  refine ⟨rfl, rfl, rfl⟩

/-! ### Claim C3: the attempt loop of `stat` / `get` -/

/-- **C3**: the bounded-retry contract is dead code.  A first successful
attempt returns its result; but any transient failure makes the `except`
handler read the name `aggressive`, which is undefined at module level (it
is only a parameter of `download`), so a `NameError` escapes after that
single attempt.  A fetch that fails transiently `maxAttempts - 1 = 1` time
and would then succeed never reaches its second attempt and does not return
the successful result; `maxAttempts = 2` consecutive transient failures
likewise end after one attempt with the escaping `NameError`, not with a
recoverable `ExhaustedRetries` value (only the caller's bare `except` keeps
the run going). -/
theorem stat_transient_failure_raises_name_error :
    stat (fun _ => Attempt.ok ((7 : Nat), "<id>")) = Except.ok ((7 : Nat), "<id>") ∧
      stat (fun i => if i = 0 then Attempt.transient else Attempt.ok ((7 : Nat), "<id>")) =
        Except.error PyError.nameError ∧
      stat (α := Nat × String) (fun _ => Attempt.transient) =
        Except.error PyError.nameError ∧
      retryUsed (fun i => if i = 0 then Attempt.transient
        else Attempt.ok ((7 : Nat), "<id>")) 0 attempts = 1 ∧
      retryUsed (α := Nat × String) (fun _ => Attempt.transient) 0 attempts = 1 := by
  refine ⟨rfl, rfl, rfl, rfl, rfl⟩

/-! ### Claim C6: the dedup-index insert -/

/-- **C6 counterexample**: inserting an entry whose messageId is already in
the index does not fail with `DuplicateKey`; it appends a second row, so the
index holds two entries with the same messageId. -/
theorem index_insert_allows_duplicate_msgid :
    countMsgid [⟨"a", "d", "s", "t"⟩] "a" = 1 ∧
      countMsgid (index_msg [⟨"a", "d", "s", "t"⟩] ⟨"a", "d2", "s2", "t2"⟩) "a" = 2 := by
  refine ⟨rfl, rfl⟩

/-- **C6 amended**: `INSERT INTO messages` on the constraint-free table
always succeeds and appends exactly one row: for every index state and every
entry, the number of rows carrying the inserted messageId grows by one
(whether or not it was already present — no `DuplicateKey` error exists),
and the count for every other messageId is unchanged. -/
theorem index_insert_always_appends (idx : Index) (m : Msg) (id : String) :
    countMsgid (index_msg idx m) id =
      countMsgid idx id + (if m.msgid == id then 1 else 0) := by
  simp only [countMsgid, index_msg, List.filter_append, List.length_append]
  congr 1
  by_cases h : m.msgid == id
  · simp [List.filter_cons, h]
  · simp only [Bool.not_eq_true] at h
    simp [List.filter_cons, h]

/-! ### Non-update (no `-u` flag) behavior of the check loop -/

/-- Without `-u`, `check` short-circuits to queue: the check loop queues
every scanned number (independently of the index, which it never reads),
provided the `status` line does not divide by zero. -/
theorem scanQueue_non_update (startnr last : Nat) (remote : Nat → Option Msg)
    (idx : Index) (hl : last ≠ startnr) :
    ∀ L : List Nat, scanQueue false false startnr last remote idx L = L := by
  intro L
  induction L with
  | nil => simp [scanQueue]
  | cons m rest ih =>
    have hc : check false remote idx m = .queue := by simp [check]
    simp only [scanQueue, if_neg Bool.false_ne_true, if_neg hl, hc]
    rw [ih]

/-- Without `-u`, the check loop performs no `stat` calls at all. -/
theorem scanProbes_non_update (startnr last : Nat) (remote : Nat → Option Msg)
    (idx : Index) :
    ∀ L : List Nat, scanProbes false false startnr last remote idx L = 0 := by
  intro L
  induction L with
  | nil => simp [scanProbes]
  | cons m rest ih =>
    by_cases hl : last = startnr
    · simp only [scanProbes, if_neg Bool.false_ne_true, if_pos hl]
      exact ih
    · have hc : check false remote idx m = .queue := by simp [check]
      simp only [scanProbes, if_neg Bool.false_ne_true, if_neg hl, hc]
      simpa using ih

/-! ### Claim C7: ascending fetch order -/

/-- The check loop's stack is a sublist of the scanned number list. -/
theorem scanQueue_sublist (dryRun update : Bool) (startnr last : Nat)
    (remote : Nat → Option Msg) (idx : Index) :
    ∀ L : List Nat, List.Sublist (scanQueue dryRun update startnr last remote idx L) L := by
  intro L
  induction L with
  | nil => simp [scanQueue]
  | cons m rest ih =>
    cases dryRun with
    | true =>
      simp only [scanQueue, if_pos rfl]
      exact List.Sublist.cons m ih
    | false =>
      by_cases hl : last = startnr
      · simp only [scanQueue, if_neg Bool.false_ne_true, if_pos hl]
        exact List.Sublist.cons m ih
      · rcases hc : check update remote idx m with _ | _ | _ <;>
          simp only [scanQueue, if_neg Bool.false_ne_true, if_neg hl, hc]
        · exact List.Sublist.cons₂ m ih
        · exact List.nil_sublist _
        · exact List.Sublist.cons m ih

/-- The scanned numbers are strictly descending. -/
theorem descRange_pairwise_gt (startnr last : Nat) :
    (descRange startnr last).Pairwise (· > ·) := by
  rw [descRange, List.pairwise_reverse]
  exact List.pairwise_lt_range' _ _

theorem downloadStack_eq (aggressive dryRun update : Bool)
    (number start : Option Nat) (first last : Nat) (remote : Nat → Option Msg)
    (idx0 : Index) :
    downloadStack aggressive dryRun update number start first last remote idx0 =
      scanQueue dryRun update (resolveRange first last start number).1
        (resolveRange first last start number).2 remote idx0
        (descRange (resolveRange first last start number).1
          (resolveRange first last start number).2) := by
  simp [downloadStack, scanList_spec]

/-- **C7**: the fetch phase processes the queued numbers in strictly
ascending sequence-number order (the stack was pushed in descending scan
order and is popped in reverse), and both the mbox and the index receive the
fetched messages as appends in exactly that order: if `a < b` are both
fetched, `a`'s message is appended to the archive and inserted into the
index before `b`'s. -/
theorem fetch_ascending_append_order (aggressive dryRun update : Bool)
    (number start : Option Nat) (first last : Nat) (remote : Nat → Option Msg)
    (idx0 : Index) (mbox0 : List Msg) :
    let order :=
      (downloadStack aggressive dryRun update number start first last remote idx0).reverse
    List.Pairwise (· < ·) order ∧
      (download aggressive dryRun update number start first last remote idx0 mbox0).mbox =
        mbox0 ++ fetchMsgs remote order ∧
      (download aggressive dryRun update number start first last remote idx0 mbox0).index =
        idx0 ++ fetchMsgs remote order := by
  refine ⟨?_, ?_, ?_⟩
  · rw [downloadStack_eq, List.pairwise_reverse]
    exact List.Pairwise.sublist (scanQueue_sublist _ _ _ _ _ _ _) (descRange_pairwise_gt _ _)
  · simp only [downloadStack_eq, download, syncRange_mbox]
  · simp only [downloadStack_eq, download, syncRange_index]

/-! ### Claim C9: the single-number range -/

/-- A non-dry run over the degenerate range `[s, s]`: the `status` line
divides by zero at the only message number, the bare `except` swallows it,
and the run ends having checked, queued, fetched and stored nothing. -/
theorem syncRange_single (aggressive update : Bool) (s : Nat)
    (remote : Nat → Option Msg) (idx0 : Index) (mbox0 : List Msg) :
    syncRange aggressive false update s s remote idx0 mbox0 =
      ⟨idx0, mbox0, [Event.zeroDiv s, Event.flushMbox]⟩ := by
  have hdesc : descRange s s = [s] := by
    simp [descRange]
  rw [syncRange_spec]
  simp [hdesc, scanQueue, scanEvents, fetchMsgs, fetchEvents]

/-- **C9**: for every non-dry run whose resolved range contains exactly one
sequence number (`startnr = last`), the progress computation divides by
`last - startnr = 0`; the `ZeroDivisionError` is swallowed by the blanket
`except`, so the single message is never stat'ed, checked, queued, fetched
or stored: the run's entire observable trace is the swallowed division
error followed by the final mbox flush, and index and mbox are unchanged. -/
theorem single_number_range_archives_nothing (aggressive update : Bool)
    (number start : Option Nat) (first last : Nat) (remote : Nat → Option Msg)
    (idx0 : Index) (mbox0 : List Msg)
    (h : (resolveRange first last start number).1 = (resolveRange first last start number).2) :
    download aggressive false update number start first last remote idx0 mbox0 =
      ⟨idx0, mbox0,
        [Event.zeroDiv (resolveRange first last start number).1, Event.flushMbox]⟩ := by
  simp only [download]
  rw [← h]
  exact syncRange_single aggressive update _ remote idx0 mbox0

/-- Witness for C9: group range `7..7` with no explicit start or count
resolves to the single-number range `[7, 7]`, and the run archives nothing:
even though article 7 exists remotely, the whole trace is the swallowed
`ZeroDivisionError` plus the final flush. -/
theorem single_number_range_archives_nothing_witness :
    (resolveRange 7 7 none none).1 = (resolveRange 7 7 none none).2 ∧
      download false false true none none 7 7
          (fun _ => some ⟨"a", "d", "s", "t"⟩) [] [] =
        ⟨[], [], [Event.zeroDiv 7, Event.flushMbox]⟩ := by
  refine ⟨rfl, ?_⟩
  have h := single_number_range_archives_nothing false true none none 7 7
    (fun _ => some ⟨"a", "d", "s", "t"⟩) [] [] rfl
  simpa using h

/-! ### Claims C1 and C8: the boundary-finding scan -/

/-- Message numbers that exist on the remote and are not yet indexed are all
queued, in scan order, and the scan continues past them into the rest of the
list. -/
theorem scanQueue_new_block (startnr last : Nat) (remote : Nat → Option Msg)
    (idx : Index) (hl : last ≠ startnr) :
    ∀ L1 L2 : List Nat,
      (∀ n ∈ L1, presentAt remote n = true ∧ indexedAt remote idx n = false) →
      scanQueue false true startnr last remote idx (L1 ++ L2) =
        L1 ++ scanQueue false true startnr last remote idx L2 := by
  intro L1
  induction L1 with
  | nil => intro L2 _; simp
  | cons m r1 ih =>
    intro L2 hall
    have hm := hall m (by simp)
    have hc := check_queue_of_new remote idx m hm.1 hm.2
    simp only [List.cons_append, scanQueue, if_neg Bool.false_ne_true, if_neg hl, hc,
      List.append_eq]
    rw [ih L2 (fun n hn => hall n (by simp [hn]))]

/-- Each number of such a prefix costs exactly one `stat` call. -/
theorem scanProbes_new_block (startnr last : Nat) (remote : Nat → Option Msg)
    (idx : Index) (hl : last ≠ startnr) :
    ∀ L1 L2 : List Nat,
      (∀ n ∈ L1, presentAt remote n = true ∧ indexedAt remote idx n = false) →
      scanProbes false true startnr last remote idx (L1 ++ L2) =
        L1.length + scanProbes false true startnr last remote idx L2 := by
  intro L1
  induction L1 with
  | nil => intro L2 _; simp
  | cons m r1 ih =>
    intro L2 hall
    have hm := hall m (by simp)
    have hc := check_queue_of_new remote idx m hm.1 hm.2
    simp only [List.cons_append, scanProbes, if_neg Bool.false_ne_true, if_neg hl, hc,
      List.append_eq]
    rw [ih L2 (fun n hn => hall n (by simp [hn]))]
    simp only [List.length_cons]
    rw [if_pos (by trivial)]
    omega

/-- An already-indexed head makes the scan `break` at once: one probe, one
`SKIP`, nothing queued from this point on. -/
theorem scanQueue_indexed_head (startnr last : Nat) (remote : Nat → Option Msg)
    (idx : Index) (hl : last ≠ startnr) (m : Nat) (L : List Nat)
    (hm : indexedAt remote idx m = true) :
    scanQueue false true startnr last remote idx (m :: L) = [] ∧
      scanProbes false true startnr last remote idx (m :: L) = 1 := by
  have hc := check_skip_of_indexed remote idx m hm
  constructor <;>
    simp [scanQueue, scanProbes, if_neg Bool.false_ne_true, if_neg hl, hc]

/-- Splitting the scanned (descending) range at a boundary `k`. -/
theorem descRange_split (startnr last k : Nat) (hk1 : startnr ≤ k)
    (hk2 : k ≤ last + 1) :
    descRange startnr last =
      descRange k last ++ (List.range' startnr (k - startnr)).reverse := by
  have h1 : startnr + (k - startnr) = k := by omega
  have h2 : last + 1 - k + (k - startnr) = last + 1 - startnr := by omega
  have hr := List.range'_append_1 startnr (k - startnr) (last + 1 - k)
  rw [h1, h2] at hr
  rw [descRange, descRange, ← hr, List.reverse_append]

/-- The lower part `[startnr, k)` of the split, when non-empty, starts (in
scan order) with `k - 1`. -/
theorem range'_reverse_head (startnr k : Nat) (h : startnr < k) :
    (List.range' startnr (k - startnr)).reverse =
      (k - 1) :: (List.range' startnr (k - 1 - startnr)).reverse := by
  have h1 : k - startnr = (k - 1 - startnr) + 1 := by omega
  rw [h1, List.range'_1_concat, List.reverse_append]
  have h2 : startnr + (k - 1 - startnr) = k - 1 := by omega
  simp [h2]

/-- **C1 amended**: when `[startnr, k)` is already indexed and `[k, last]`
exists remotely but is not yet indexed (and the range has at least two
numbers so the `status` line does not divide by zero), the check loop queues
exactly the numbers `k, ..., last` (in descending order — the fetch phase
then pops them in ascending order), i.e. it finds the boundary `k` exactly;
it queues nothing when `k = last + 1` (whole range indexed).  However the
scan is a *linear* top-down sweep, not a binary search: it costs
`(last + 1 - k)` stat calls for the new suffix plus one further probe that
hits the indexed zone (when there is one), not `O(log(last - startnr))`. -/
theorem boundary_scan_selects_new_suffix (startnr last k : Nat)
    (remote : Nat → Option Msg) (idx : Index)
    (hsl : startnr < last) (hk1 : startnr ≤ k) (hk2 : k ≤ last + 1)
    (hlow : ∀ n, startnr ≤ n → n < k →
      presentAt remote n = true ∧ indexedAt remote idx n = true)
    (hhigh : ∀ n, k ≤ n → n ≤ last →
      presentAt remote n = true ∧ indexedAt remote idx n = false) :
    scanQueue false true startnr last remote idx (descRange startnr last) =
        descRange k last ∧
      scanProbes false true startnr last remote idx (descRange startnr last) =
        (last + 1 - k) + (if startnr < k then 1 else 0) := by
  have hl : last ≠ startnr := by omega
  have hhigh' : ∀ n ∈ descRange k last,
      presentAt remote n = true ∧ indexedAt remote idx n = false := by
    intro n hn
    rw [descRange, List.mem_reverse, List.mem_range'_1] at hn
    exact hhigh n hn.1 (by omega)
  have hlen : (descRange k last).length = last + 1 - k := by
    simp [descRange]
  rw [descRange_split startnr last k hk1 hk2]
  by_cases hk : startnr < k
  · rw [range'_reverse_head startnr k hk]
    have hhead : indexedAt remote idx (k - 1) = true :=
      (hlow (k - 1) (by omega) (by omega)).2
    obtain ⟨hq, hp⟩ := scanQueue_indexed_head startnr last remote idx hl (k - 1)
      ((List.range' startnr (k - 1 - startnr)).reverse) hhead
    constructor
    · rw [scanQueue_new_block startnr last remote idx hl _ _ hhigh', hq,
        List.append_nil]
    · rw [scanProbes_new_block startnr last remote idx hl _ _ hhigh', hp, hlen,
        if_pos hk]
  · have hks : k = startnr := by omega
    have : (List.range' startnr (k - startnr)).reverse = ([] : List Nat) := by
      simp [hks]
    rw [this]
    constructor
    · rw [scanQueue_new_block startnr last remote idx hl _ _ hhigh']
      simp [scanQueue]
    · rw [scanProbes_new_block startnr last remote idx hl _ _ hhigh', hlen,
        if_neg hk]
      simp [scanProbes]

set_option maxRecDepth 8192 in
/-- **C1 counterexample**: the boundary-finding scan's probe count is linear
in the range size, not `O(log(last-first))`: with nothing indexed it makes
64 stat calls over `[1, 64]` and 128 over `[1, 128]` — doubling the range
doubles the probe count, where a binary search would need about
`log2 64 = 6` resp. `log2 128 = 7` probes. -/
theorem boundary_scan_probe_count_linear :
    scanProbes false true 1 64 remoteAll [] (descRange 1 64) = 64 ∧
      scanProbes false true 1 128 remoteAll [] (descRange 1 128) = 128 ∧
      64 = 2 ^ 6 ∧ 128 = 2 ^ 7 := by
  refine ⟨by decide, by decide, by decide, by decide⟩

/-- Witness for the amended C1: group `[1, 4]`, articles 1 and 2 already
indexed (`k = 3`): the scan queues exactly `[4, 3]` (so messages 3 and 4
are fetched, in that order) using `2 + 1 = 3` stat calls. -/
theorem boundary_scan_selects_new_suffix_witness :
    (1 < 4 ∧ 1 ≤ 3 ∧ 3 ≤ 4 + 1) ∧
      scanQueue false true 1 4 remoteFour idxFour (descRange 1 4) = descRange 3 4 ∧
      scanProbes false true 1 4 remoteFour idxFour (descRange 1 4) =
        (4 + 1 - 3) + (if 1 < 3 then 1 else 0) := by
  refine ⟨by decide,
    boundary_scan_selects_new_suffix 1 4 3 remoteFour idxFour (by decide) (by decide)
      (by decide) ?_ ?_⟩
  · intro n h1 h2
    interval_cases n <;> decide
  · intro n h1 h2
    interval_cases n <;> decide

/-- **C8**: when sequence number `k` is absent on the remote (`stat`'s first
attempt raises `NNTPTemporaryError` and its handler then raises `NameError`
on the undefined name `aggressive`, swallowed by the check loop's bare
`except`) while `(k, last]` is present and new and
`[startnr, k)` is present and indexed, the scan still converges: it queues
exactly the new numbers `k+1, ..., last` (the gap is skipped, not confused
with "already seen"), and every one of them is fetched and stored in the
mbox. -/
theorem gap_tolerated_scan_fetches_new_items (aggressive : Bool)
    (startnr last k : Nat) (remote : Nat → Option Msg) (idx0 : Index)
    (mbox0 : List Msg)
    (hk1 : startnr ≤ k) (hk2 : k < last) (hgap : remote k = none)
    (hlow : ∀ n, startnr ≤ n → n < k →
      presentAt remote n = true ∧ indexedAt remote idx0 n = true)
    (hhigh : ∀ n, k < n → n ≤ last →
      presentAt remote n = true ∧ indexedAt remote idx0 n = false) :
    scanQueue false true startnr last remote idx0 (descRange startnr last) =
        descRange (k + 1) last ∧
      (syncRange aggressive false true startnr last remote idx0 mbox0).mbox =
        mbox0 ++ fetchMsgs remote (List.range' (k + 1) (last - k)) ∧
      ∀ n, k < n → n ≤ last → ∃ m, remote n = some m ∧
        m ∈ (syncRange aggressive false true startnr last remote idx0 mbox0).mbox := by
  have hl : last ≠ startnr := by omega
  have hhigh' : ∀ n ∈ descRange (k + 1) last,
      presentAt remote n = true ∧ indexedAt remote idx0 n = false := by
    intro n hn
    rw [descRange, List.mem_reverse, List.mem_range'_1] at hn
    exact hhigh n (by omega) (by omega)
  have hq : scanQueue false true startnr last remote idx0 (descRange startnr last) =
      descRange (k + 1) last := by
    rw [descRange_split startnr last (k + 1) (by omega) (by omega)]
    rw [range'_reverse_head startnr (k + 1) (by omega)]
    have he1 : k + 1 - 1 = k := by omega
    rw [he1]
    rw [scanQueue_new_block startnr last remote idx0 hl _ _ hhigh']
    have hck := check_raised_of_absent remote idx0 k hgap
    have htail : scanQueue false true startnr last remote idx0
        (k :: (List.range' startnr (k - startnr)).reverse) = [] := by
      simp only [scanQueue, if_neg Bool.false_ne_true, if_neg hl, hck]
      by_cases hs : startnr < k
      · rw [range'_reverse_head startnr k hs]
        exact (scanQueue_indexed_head startnr last remote idx0 hl (k - 1) _
          ((hlow (k - 1) (by omega) (by omega)).2)).1
      · have : k - startnr = 0 := by omega
        simp [this, scanQueue]
    rw [htail, List.append_nil]
  have hdr : (descRange (k + 1) last).reverse = List.range' (k + 1) (last - k) := by
    have : last + 1 - (k + 1) = last - k := by omega
    simp [descRange, this]
  have hm : (syncRange aggressive false true startnr last remote idx0 mbox0).mbox =
      mbox0 ++ fetchMsgs remote (List.range' (k + 1) (last - k)) := by
    rw [syncRange_mbox, hq, hdr]
  refine ⟨hq, hm, ?_⟩
  intro n hn1 hn2
  rcases hp : remote n with _ | m
  · have := (hhigh n hn1 hn2).1
    simp [presentAt, hp] at this
  · refine ⟨m, rfl, ?_⟩
    rw [hm]
    refine List.mem_append_right _ ?_
    refine List.mem_filterMap.mpr ⟨n, ?_, hp⟩
    rw [List.mem_range'_1]
    omega

/-- Witness for C8: group `[1, 4]`, article 2 absent on the remote,
article 1 already indexed, articles 3 and 4 new: the scan queues exactly
`[4, 3]`, and messages 3 and 4 are both stored in the mbox. -/
theorem gap_tolerated_scan_fetches_new_items_witness :
    (1 ≤ 2 ∧ 2 < 4 ∧ remoteGap 2 = none) ∧
      scanQueue false true 1 4 remoteGap [⟨"a1", "", "", ""⟩] (descRange 1 4) =
        descRange 3 4 ∧
      (syncRange false false true 1 4 remoteGap [⟨"a1", "", "", ""⟩] []).mbox =
        [] ++ fetchMsgs remoteGap (List.range' 3 2) ∧
      ∀ n, 2 < n → n ≤ 4 → ∃ m, remoteGap n = some m ∧
        m ∈ (syncRange false false true 1 4 remoteGap [⟨"a1", "", "", ""⟩] []).mbox := by
  refine ⟨by decide, ?_⟩
  have h := gap_tolerated_scan_fetches_new_items false 1 4 2 remoteGap
    [⟨"a1", "", "", ""⟩] [] (by decide) (by decide) (by decide)
    (fun n h1 h2 => by interval_cases n; decide)
    (fun n h1 h2 => by interval_cases n <;> decide)
  simpa using h

/-! ### Claim C5: checkpointing -/

/-- Sleep events of a non-update scan (never breaks, so one iteration per
scanned number). -/
theorem countP_sleepEv_scanEvents_non_update (aggressive : Bool)
    (startnr last : Nat) (remote : Nat → Option Msg) (idx : Index) :
    ∀ L : List Nat,
      (scanEvents aggressive false false startnr last remote idx L).countP isSleepEv =
        scanSleeps aggressive startnr L := by
  intro L
  induction L with
  | nil => simp [scanEvents, scanSleeps]
  | cons m rest ih =>
    have hc : check false remote idx m = .queue := by simp [check]
    by_cases hl : last = startnr
    · subst hl
      simp [scanEvents, scanSleeps, hc, List.countP_append, List.countP_cons,
        apply_ite (List.countP isSleepEv), ih]
    · simp [scanEvents, scanSleeps, hc, hl, List.countP_append, List.countP_cons,
        apply_ite (List.countP isSleepEv), ih]

/-- On the all-present remote every queued number yields a message. -/
theorem fetchMsgs_remoteAll_length :
    ∀ L : List Nat, (fetchMsgs remoteAll L).length = L.length := by
  intro L
  induction L with
  | nil => rfl
  | cons m rest ih =>
    simp only [fetchMsgs, List.filterMap_cons] at ih ⊢
    simp [remoteAll, ih]

theorem descRange_length (startnr last : Nat) :
    (descRange startnr last).length = last + 1 - startnr := by
  simp [descRange]

/-- **C5 amended**: there is no batched checkpoint.  In any non-dry,
non-update run: the archive is flushed exactly once, as the very last event
of the run (so zero flush events occur before the final flush); the index
is committed once per successfully stored message, not once per 1000; and
the 30-second pauses happen during the check scan, at each scanned sequence
number divisible by 1000 other than `startnr` (and only when the aggressive
flag is off) — they are not attached to any flush or commit. -/
theorem checkpoint_flush_once_commit_per_store (aggressive : Bool)
    (number start : Option Nat) (first last : Nat) (remote : Nat → Option Msg)
    (idx0 : Index) (mbox0 : List Msg) :
    (∃ pre,
      (download aggressive false false number start first last remote idx0 mbox0).events =
          pre ++ [Event.flushMbox] ∧
        pre.countP isFlushEv = 0) ∧
      (download aggressive false false number start first last remote idx0 mbox0).events.countP
          isCommitEv =
        (download aggressive false false number start first last remote idx0 mbox0).mbox.length -
          mbox0.length ∧
      (download aggressive false false number start first last remote idx0 mbox0).events.countP
          isSleepEv =
        scanSleeps aggressive (resolveRange first last start number).1
          (descRange (resolveRange first last start number).1
            (resolveRange first last start number).2) := by
  refine ⟨⟨?_, ?_, ?_⟩, ?_, ?_⟩
  · exact scanEvents aggressive false false (resolveRange first last start number).1
      (resolveRange first last start number).2 remote idx0
      (descRange (resolveRange first last start number).1
        (resolveRange first last start number).2) ++
      fetchEvents remote
        (scanQueue false false (resolveRange first last start number).1
          (resolveRange first last start number).2 remote idx0
          (descRange (resolveRange first last start number).1
            (resolveRange first last start number).2)).reverse
  · simp [download, syncRange_events]
  · simp [List.countP_append, countP_flushEv_scanEvents, countP_flushEv_fetchEvents]
  · simp only [download, syncRange_events, syncRange_mbox, List.countP_append,
      countP_commitEv_scanEvents, countP_commitEv_fetchEvents, List.length_append]
    simp
  · simp only [download, syncRange_events, List.countP_append,
      countP_sleepEv_scanEvents_non_update, countP_sleepEv_fetchEvents]
    simp

set_option maxRecDepth 8192 in
/-- **C5 counterexample**: a non-dry run that fetches 2500 messages
(range `[1, 2500]`, nothing skipped) performs no batched checkpoint at all:
the entire run contains exactly one archive flush — the final one, so zero
flush+commit checkpoint events occur before it, not 2 — and the index is
committed 2500 times, once per stored message, not once per 1000 items. -/
theorem no_batched_checkpoint_in_2500_item_run :
    (download false false false none none 1 2500 remoteAll [] []).events.countP
        isFlushEv = 1 ∧
      (download false false false none none 1 2500 remoteAll [] []).events.countP
        isCommitEv = 2500 := by
  have hr : resolveRange 1 2500 none none = (1, 2500) := rfl
  have hq : scanQueue false false 1 2500 remoteAll [] (descRange 1 2500) =
      descRange 1 2500 :=
    scanQueue_non_update 1 2500 remoteAll [] (by omega) _
  constructor
  · simp only [download, syncRange_events, hr, List.countP_append,
      countP_flushEv_scanEvents, countP_flushEv_fetchEvents]
    simp
  · simp only [download, syncRange_events, hr, List.countP_append,
      countP_commitEv_scanEvents, countP_commitEv_fetchEvents, hq]
    rw [fetchMsgs_remoteAll_length]
    simp [descRange_length]

/-! ### Claim C10: non-update mode refetches everything -/

theorem countMsgid_append (A B : Index) (id : String) :
    countMsgid (A ++ B) id = countMsgid A id + countMsgid B id := by
  simp [countMsgid, List.filter_append]

theorem one_le_countMsgid_of_contains (idx : Index) (id : String)
    (h : contains idx id = true) : 1 ≤ countMsgid idx id := by
  rw [contains, List.any_eq_true] at h
  obtain ⟨e, he, heq⟩ := h
  have hmem : e ∈ idx.filter (fun e => e.msgid == id) :=
    List.mem_filter.mpr ⟨he, heq⟩
  have := List.length_pos.mpr (List.ne_nil_of_mem hmem)
  simpa [countMsgid] using this

theorem one_le_countMsgid_of_mem (idx : Index) (m : Msg) (h : m ∈ idx) :
    1 ≤ countMsgid idx m.msgid := by
  apply one_le_countMsgid_of_contains
  rw [contains, List.any_eq_true]
  exact ⟨m, h, by simp⟩

/-- **C10 amended**: without the update flag (and with a resolved range of
at least two numbers, so the `status` line does not divide by zero), the
check loop queues every number of the resolved range without consulting the
index (the queue is the same whatever the index contains) and without a
single `stat` call; every existing message of the range is then fetched and
appended to both mbox and index — even when its messageId is already
present, in which case the final index holds at least two entries for it. -/
theorem non_update_fetches_all_ignoring_index (aggressive : Bool)
    (number start : Option Nat) (first last : Nat) (remote : Nat → Option Msg)
    (idx0 : Index) (mbox0 : List Msg)
    (h : (resolveRange first last start number).1 <
      (resolveRange first last start number).2) :
    (∀ idx1 : Index,
        scanQueue false false (resolveRange first last start number).1
            (resolveRange first last start number).2 remote idx1
            (descRange (resolveRange first last start number).1
              (resolveRange first last start number).2) =
          descRange (resolveRange first last start number).1
            (resolveRange first last start number).2) ∧
      (download aggressive false false number start first last remote idx0 mbox0).events.countP
          isStatEv = 0 ∧
      (download aggressive false false number start first last remote idx0 mbox0).mbox =
        mbox0 ++ fetchMsgs remote
          (List.range' (resolveRange first last start number).1
            ((resolveRange first last start number).2 + 1 -
              (resolveRange first last start number).1)) ∧
      ∀ n m, (resolveRange first last start number).1 ≤ n →
        n ≤ (resolveRange first last start number).2 → remote n = some m →
        m ∈ (download aggressive false false number start first last remote idx0 mbox0).mbox ∧
          (contains idx0 m.msgid = true →
            2 ≤ countMsgid
              (download aggressive false false number start first last remote idx0 mbox0).index
              m.msgid) := by
  have hl : (resolveRange first last start number).2 ≠
      (resolveRange first last start number).1 := by omega
  have hq := fun idx1 => scanQueue_non_update (resolveRange first last start number).1
    (resolveRange first last start number).2 remote idx1 hl
    (descRange (resolveRange first last start number).1
      (resolveRange first last start number).2)
  have hrev : (descRange (resolveRange first last start number).1
      (resolveRange first last start number).2).reverse =
      List.range' (resolveRange first last start number).1
        ((resolveRange first last start number).2 + 1 -
          (resolveRange first last start number).1) := by
    simp [descRange]
  have hmbox : (download aggressive false false number start first last remote idx0 mbox0).mbox =
      mbox0 ++ fetchMsgs remote
        (List.range' (resolveRange first last start number).1
          ((resolveRange first last start number).2 + 1 -
            (resolveRange first last start number).1)) := by
    simp only [download, syncRange_mbox, hq idx0, hrev]
  have hidx : (download aggressive false false number start first last remote idx0 mbox0).index =
      idx0 ++ fetchMsgs remote
        (List.range' (resolveRange first last start number).1
          ((resolveRange first last start number).2 + 1 -
            (resolveRange first last start number).1)) := by
    simp only [download, syncRange_index, hq idx0, hrev]
  refine ⟨hq, ?_, hmbox, ?_⟩
  · simp only [download, syncRange_events, List.countP_append,
      countP_statEv_scanEvents, countP_statEv_fetchEvents, scanProbes_non_update]
    simp
  · intro n m hn1 hn2 hm
    have hmemrange : n ∈ List.range' (resolveRange first last start number).1
        ((resolveRange first last start number).2 + 1 -
          (resolveRange first last start number).1) := by
      rw [List.mem_range'_1]
      omega
    have hmemF : m ∈ fetchMsgs remote
        (List.range' (resolveRange first last start number).1
          ((resolveRange first last start number).2 + 1 -
            (resolveRange first last start number).1)) :=
      List.mem_filterMap.mpr ⟨n, hmemrange, hm⟩
    constructor
    · rw [hmbox]
      exact List.mem_append_right _ hmemF
    · intro hct
      rw [hidx, countMsgid_append]
      have h1 := one_le_countMsgid_of_contains idx0 m.msgid hct
      have h2 := one_le_countMsgid_of_mem _ m hmemF
      omega

/-- Witness for the amended C10: group `[1, 2]` whose two articles carry the
same messageId as the one already in the index and mbox: the run refetches
and appends both anyway, and the index ends with at least two rows for that
messageId. -/
theorem non_update_fetches_all_ignoring_index_witness :
    (resolveRange 1 2 none none).1 < (resolveRange 1 2 none none).2 ∧
      (download false false false none none 1 2 remoteAll [msgA] [msgA]).mbox =
        [msgA] ++ fetchMsgs remoteAll (List.range' 1 2) ∧
      2 ≤ countMsgid
        (download false false false none none 1 2 remoteAll [msgA] [msgA]).index
        msgA.msgid := by
  have h := non_update_fetches_all_ignoring_index false none none 1 2 remoteAll
    [msgA] [msgA] (by decide)
  obtain ⟨-, -, hmbox, hmem⟩ := h
  refine ⟨by decide, ?_, ?_⟩
  · exact hmbox
  · have hx := hmem 1 msgA (by decide) (by decide) rfl
    exact hx.2 (by decide)

/-- **C10 counterexample**: the claim's "every message in the resolved range
is fetched" fails on a single-number range: with resolved range `[5, 5]`
and an existing remote article at 5, the `ZeroDivisionError` in the status
line aborts the check iteration, so nothing is queued, fetched or appended. -/
theorem non_update_singleton_range_fetches_nothing :
    remoteAll 5 = some msgA ∧
      (download false false false none none 5 5 remoteAll [] []).mbox = [] := by
  constructor
  · rfl
  · have h := syncRange_single false false 5 remoteAll [] []
    simpa [download] using congrArg RunSt.mbox h

end Nntp2mbox
